import Mathlib

/-!
Shallow embedding of the deliberation/consensus engine of
`medical_diagnosis_system.py` (class `MedicalDiagnosisSystem`).

Conventions of the embedding:
* Python strings are Lean `String`s; regular-expression searches from the
  source (`re.search`) are modelled as explicit leftmost-match scanners over
  `List Char`, following CPython semantics (greedy `\s*`, backtracking, `.`
  not matching a newline unless `re.DOTALL` is given).
* `float` confidences are modelled as `ℚ`: every numeric literal the code can
  actually parse here is a short decimal string, and no claim depends on
  binary rounding.
* The Anthropic API is an external oracle: each call's outcome (response
  text, or a raised exception) is an explicit input to the embedded
  functions.  `_call_claude` itself is modelled by `callClaude` over an
  `ApiBehavior` describing the outcome of the underlying `messages.create`
  calls.
* Mutation of `self` is modelled by explicit state passing over `SysState`,
  which carries the fields of `MedicalDiagnosisSystem.__init__` that the
  debate engine reads or writes (fields that only the intake dialogue
  touches — `patient_info`, `inquiry_complete`, `conversation_history`,
  feature flags, `language` — are omitted; no claim mentions them).
  The runtime `timestamp` default of `DebateRound` is omitted (real time).
-/

/-- The five-stage debate protocol (`class DebateStage(Enum)`). -/
inductive DebateStage where
  | opinion
  | referee_check
  | cross_counter
  | rebuttal
  | final_judgment
deriving DecidableEq

/-- One round of debate (`@dataclass DebateRound`); the runtime timestamp
field is omitted. -/
structure DebateRound where
  round_number : Nat
  stage : DebateStage
  speaker : String
  content : String
  referee_feedback : Option String
  hallucination_detected : Bool
deriving DecidableEq

/-- A diagnostic opinion (`@dataclass DiagnosisOpinion`). -/
structure DiagnosisOpinion where
  specialist : String
  diagnosis : String
  confidence : ℚ
  reasoning : String
  evidence : List String
deriving DecidableEq

/-- The debate-relevant mutable state of `MedicalDiagnosisSystem`. -/
structure SysState where
  selected_specialists : List String
  specialist_groups : List (String × String)
  debate_history : List DebateRound
  current_round : Nat
  max_rounds : Nat
  stagnation_threshold : Nat
  last_opinions : List String
  stagnation_count : Nat
  active_opinions : List DiagnosisOpinion
deriving DecidableEq

/-- The state installed by `MedicalDiagnosisSystem.__init__`. -/
def initState : SysState where
  selected_specialists := []
  specialist_groups := []
  debate_history := []
  current_round := 0
  max_rounds := 100
  stagnation_threshold := 10
  last_opinions := []
  stagnation_count := 0
  active_opinions := []

/-! ## Character and string utilities (CPython semantics) -/

/-- Python `\s` over ASCII: space, tab, newline, carriage return, vertical
tab, form feed. -/
def isPySpace (c : Char) : Bool :=
  c == ' ' || c == '\t' || c == '\n' || c == '\r' || c.toNat == 11 || c.toNat == 12

/-- Python `str.strip()` with no argument: drop whitespace on both ends. -/
def pyStrip (cs : List Char) : List Char :=
  ((cs.dropWhile isPySpace).reverse.dropWhile isPySpace).reverse

/-- If `hay` starts with the literal `lit`, return the remainder. -/
def startsWithLit : List Char → List Char → Option (List Char)
  | hay, [] => some hay
  | [], _ :: _ => none
  | h :: hs, l :: ls => if h = l then startsWithLit hs ls else none

/-- Whether the literal `lit` occurs anywhere in `hay` (Python `in`). -/
def containsSeq (lit : List Char) : List Char → Bool
  | [] => (startsWithLit [] lit).isSome
  | c :: t => (startsWithLit (c :: t) lit).isSome || containsSeq lit t

/-- Whether `pat` occurs as a substring of `hay` (Python `pat in hay`). -/
def strContains (hay pat : String) : Bool :=
  containsSeq pat.toList hay.toList

/-- Code-point comparison of character lists, as Python compares `str`. -/
def charListLe : List Char → List Char → Bool
  | [], _ => true
  | _ :: _, [] => false
  | a :: as, b :: bs => if a < b then true else if b < a then false else charListLe as bs

/-- Python `<=` on strings (code-point lexicographic). -/
def strLe (a b : String) : Bool :=
  charListLe a.toList b.toList

/-- Insert into a sorted list of strings. -/
def insertSorted (s : String) : List String → List String
  | [] => [s]
  | t :: ts => if strLe s t then s :: t :: ts else t :: insertSorted s ts

/-- Python `sorted` on a list of strings (insertion sort; same output as
Timsort because the keys are the values themselves). -/
def sortStrings : List String → List String
  | [] => []
  | s :: ss => insertSorted s (sortStrings ss)

/-! ## Regex scanners used by `_parse_opinion_response`, `_select_specialists` -/

/-- Whether position `k` of `rest` holds a character the regex `.` can match
without `re.DOTALL` (any character other than a newline). -/
def chkNotNl (rest : List Char) (k : Nat) : Bool :=
  decide (k < rest.length) && (rest.getD k '\n' != '\n')

/-- Largest `k` at most the given bound such that `rest` has a non-newline
character at position `k` — the backtracking of a greedy `\s*` before `.+`. -/
def firstNonNl (rest : List Char) : Nat → Option Nat
  | 0 => if chkNotNl rest 0 then some 0 else none
  | k + 1 => if chkNotNl rest (k + 1) then some (k + 1) else firstNonNl rest k

/-- Match `\s*(.+)` (no DOTALL) against `rest`, returning the capture:
skip the greedy whitespace run (backtracking to the last position holding a
non-newline character), then capture to the end of the line. -/
def matchTailLine (rest : List Char) : Option (List Char) :=
  match firstNonNl rest (rest.takeWhile isPySpace).length with
  | some k => some ((rest.drop k).takeWhile (fun c => c != '\n'))
  | none => none

/-- Match `\s*(.+)` with `re.DOTALL` against `rest`: `.` matches any
character, so the match fails only at end of input, and the greedy capture
runs to the end of the string (backtracking at most one whitespace char). -/
def matchTailDotall (rest : List Char) : Option (List Char) :=
  match rest with
  | [] => none
  | _ :: _ => some (rest.drop (min (rest.takeWhile isPySpace).length (rest.length - 1)))

/-- A character matched by `[\d.]`. -/
def isDigitDot (c : Char) : Bool :=
  c.isDigit || c == '.'

/-- Match `\s*([\d.]+)` against `rest`: `\s` and `[\d.]` are disjoint, so the
digit run can only start right after the maximal whitespace run. -/
def matchTailConf (rest : List Char) : Option (List Char) :=
  match (rest.drop (rest.takeWhile isPySpace).length).takeWhile isDigitDot with
  | [] => none
  | c :: t => some (c :: t)

/-- `re.search` for `lit` followed by a tail pattern: try every start
position left to right, and at each occurrence of the literal try the tail
matcher; on failure resume the scan one position further right. -/
def searchField (lit : List Char) (tm : List Char → Option (List Char)) :
    List Char → Option (List Char)
  | [] =>
    match startsWithLit [] lit with
    | some rest => tm rest
    | none => none
  | c :: t =>
    match startsWithLit (c :: t) lit with
    | some rest =>
      match tm rest with
      | some cap => some cap
      | none => searchField lit tm t
    | none => searchField lit tm t

/-- The literal part of `진단명:\s*(.+)`. -/
def diagLit : List Char := "진단명:".toList

/-- The literal part of `확신도:\s*([\d.]+)`. -/
def confLit : List Char := "확신도:".toList

/-- The literal part of `근거:\s*(.+)` (DOTALL). -/
def reasonLit : List Char := "근거:".toList

/-- Value of a digit string (most significant first). -/
def digitsToNat (cs : List Char) : Nat :=
  cs.foldl (fun a c => a * 10 + (c.toNat - 48)) 0

/-- Python `float()` on a string drawn from `[\d.]+`: it succeeds exactly
when there is at most one dot and at least one digit; the value is the
decimal it denotes (modelled exactly in `ℚ`). -/
def pyFloat (cs : List Char) : Option ℚ :=
  if List.count '.' cs ≤ 1 ∧ cs.any Char.isDigit then
    some ((digitsToNat (cs.takeWhile (fun c => c != '.')) : ℚ) +
      (digitsToNat ((cs.drop (cs.takeWhile (fun c => c != '.')).length).drop 1) : ℚ) /
        (10 : ℚ) ^ ((cs.drop (cs.takeWhile (fun c => c != '.')).length).drop 1).length)
  else none

/-- `_parse_opinion_response`: tolerant field extraction with fallbacks
(`diagnosis = "진단 미상"`, `confidence = 0.5`, `reasoning = response`). -/
def parseOpinionResponse (specialist : String) (response : String) : DiagnosisOpinion :=
  { specialist := specialist
    diagnosis :=
      match searchField diagLit matchTailLine response.toList with
      | some cap => String.mk (pyStrip cap)
      | none => "진단 미상"
    confidence :=
      match searchField confLit matchTailConf response.toList with
      | some run =>
        match pyFloat run with
        | some v => v
        | none => (1 : ℚ) / 2
      | none => (1 : ℚ) / 2
    reasoning :=
      match searchField reasonLit matchTailDotall response.toList with
      | some cap => String.mk (pyStrip cap)
      | none => response
    evidence := [] }

/-! ## `_select_specialists` and `_form_circular_groups` -/

/-- Leftmost match of `\[([^\]]+)\]`: scan for a `[`, take the maximal run
of non-`]` characters after it; the match needs that run non-empty and a
closing `]` after it, else the scan resumes one position further right. -/
def findBracket : List Char → Option (List Char)
  | [] => none
  | c :: t =>
    if c = '[' then
      match t.takeWhile (fun d => d != ']'), t.drop (t.takeWhile (fun d => d != ']')).length with
      | [], _ => findBracket t
      | _ :: _, [] => findBracket t
      | i :: inner, _ :: _ => some (i :: inner)
    else findBracket t

/-- A character removed by `.strip(' "\'')` — space, double quote, single
quote (code points 32, 34, 39). -/
def isSelStripChar (c : Char) : Bool :=
  c.toNat == 32 || c.toNat == 34 || c.toNat == 39

/-- Python `str.strip(' "\'')`. -/
def stripSel (cs : List Char) : List Char :=
  ((cs.dropWhile isSelStripChar).reverse.dropWhile isSelStripChar).reverse

/-- Python `str.split(',')`: split on every comma, keeping empty pieces. -/
def splitComma : List Char → List (List Char)
  | [] => [[]]
  | c :: t =>
    if c = ',' then [] :: splitComma t
    else
      match splitComma t with
      | [] => [[c]]
      | p :: ps => (c :: p) :: ps

/-- The state effect of `_select_specialists` once the oracle has answered:
if the response contains a bracketed list, `selected_specialists` becomes
its comma-split, stripped items; otherwise (`re.search` returns `None`, no
exception is raised) the `if list_match:` body is skipped and the field is
left unchanged — the `except` fallback `["내과", "신경과"]` is unreachable on
this path. -/
def selectSpecialists (response : String) (cur : List String) : List String :=
  match findBracket response.toList with
  | some inner => (splitComma inner).map (fun p => String.mk (stripSel p))
  | none => cur

/-- `_form_circular_groups`: with fewer than two selected specialists the
group list is replaced by the single self-pair `S[0], S[0]` (an `IndexError`
— modelled as `none` — when the selection is empty); otherwise the loop
appends `(S[i], S[(i+1) % n])` for `i` in `range(n)` to the existing group
list. -/
def formCircularGroups (S : List String) (gs : List (String × String)) :
    Option (List (String × String)) :=
  if S.length < 2 then
    match S with
    | [] => none
    | a :: _ => some [(a, a)]
  else
    some (gs ++ (List.range S.length).map
      (fun i => (S.getD i "", S.getD ((i + 1) % S.length) "")))

/-! ## `_call_claude` -/

/-- A content block of an API message. -/
inductive CBlock where
  | text : String → CBlock
  | toolUse : String → String → CBlock
deriving DecidableEq

/-- A returned API message: stop reason and content blocks. -/
structure ApiMessage where
  stopReason : String
  content : List CBlock

/-- The outcomes of the (at most two) `messages.create` calls inside one
`_call_claude` invocation; `Except.error` is a raised exception (API
failure or timeout). -/
structure ApiBehavior where
  first : Except String ApiMessage
  second : Except String ApiMessage

/-- Concatenation of the text blocks of a message. -/
def textOf : List CBlock → String
  | [] => ""
  | CBlock.text s :: bs => s ++ textOf bs
  | CBlock.toolUse _ _ :: bs => textOf bs

/-- The tool-use blocks of a message, as (name, input) pairs. -/
def toolUsesOf : List CBlock → List (String × String)
  | [] => []
  | CBlock.text _ :: bs => toolUsesOf bs
  | CBlock.toolUse n i :: bs => (n, i) :: toolUsesOf bs

/-- `_call_claude`: a raised exception anywhere in the `try` block is caught
by `except Exception`, printed, and re-raised (`raise`) — it propagates to
the caller.  On success the text blocks are concatenated; when the first
message stops for tool use, a second call produces the final text. -/
def callClaude (b : ApiBehavior) : Except String (String × List (String × String)) :=
  match b.first with
  | Except.error e => Except.error e
  | Except.ok m =>
    if m.stopReason = "tool_use" then
      match b.second with
      | Except.error e => Except.error e
      | Except.ok m2 => Except.ok (textOf m2.content, toolUsesOf m.content)
    else
      Except.ok (textOf m.content, [])

/-- Whether an `Except` result is a success. -/
def isOkB {α β : Type} : Except α β → Bool
  | Except.ok _ => true
  | Except.error _ => false

/-! ## The debate round loop -/

/-- The oracle responses consumed during one round of the debate loop:
the Stage-1 per-group opinion texts, the Stage-5 judgment text, and the
third-perspective text used if the intervention injects an opinion.
(The Stage-2 referee feedback and Stage-3/4 rebuttal texts only feed later
prompts and never reach the session state.) -/
structure RoundEnv where
  opinionTexts : List String
  judgment : String
  inject : String

/-- `_gather_opinions` (Stage 1): one oracle response per specialist group,
parsed into an opinion tagged `"{spec_a}+{spec_b}"`, in group order. -/
def gatherOpinions : List String → List (String × String) → List DiagnosisOpinion
  | _, [] => []
  | rs, (a, b) :: gs =>
    parseOpinionResponse (a ++ "+" ++ b) (rs.headD "") :: gatherOpinions (rs.drop 1) gs

/-- `_final_judgment` (Stage 5): consensus holds exactly when the judgment
text contains `"합의 도달"`; the returned opinion list is the *current*
`self.active_opinions` (not the opinions gathered this round). -/
def finalJudgment (judgmentResp : String) (st : SysState) : Bool × List DiagnosisOpinion :=
  (strContains judgmentResp "합의 도달", st.active_opinions)

/-- `_run_debate_cycle`: Stage 1 gathers opinions into a local list (used
only to build the Stage 2–4 prompts), and the final assignment stores the
list returned by `_final_judgment` into `self.active_opinions`. -/
def runDebateCycle (e : RoundEnv) (st : SysState) : Bool × SysState :=
  let _gathered := gatherOpinions e.opinionTexts st.specialist_groups
  ((finalJudgment e.judgment st).1,
   { st with active_opinions := (finalJudgment e.judgment st).2 })

/-- The canonical signature `"|".join(sorted(op.diagnosis for op in ops))`. -/
def opinionSignature (ops : List DiagnosisOpinion) : String :=
  String.intercalate "|" (sortStrings (ops.map DiagnosisOpinion.diagnosis))

/-- `_check_stagnation`: no-op on empty opinions; on the first signature the
history is initialised; afterwards an unchanged signature increments
`stagnation_count` and a changed one resets it to 0 and appends the new
signature; returns whether the (updated) count has reached the threshold. -/
def checkStagnation (st : SysState) : Bool × SysState :=
  if st.active_opinions.length = 0 then (false, st)
  else
    match st.last_opinions.getLast? with
    | none => (false, { st with last_opinions := [opinionSignature st.active_opinions] })
    | some lastSig =>
      if opinionSignature st.active_opinions = lastSig then
        (decide (st.stagnation_threshold ≤ st.stagnation_count + 1),
         { st with stagnation_count := st.stagnation_count + 1 })
      else
        (decide (st.stagnation_threshold ≤ 0),
         { st with stagnation_count := 0,
                   last_opinions := st.last_opinions ++ [opinionSignature st.active_opinions] })

/-- Number of distinct diagnosis labels (`len(set(...))`). -/
def distinctLabelCount (ops : List DiagnosisOpinion) : Nat :=
  ((ops.map DiagnosisOpinion.diagnosis).dedup).length

/-- The opinion appended by `_inject_third_perspective`. -/
def thirdPerspectiveOpinion (resp : String) : DiagnosisOpinion :=
  { specialist := "독립전문의"
    diagnosis := "제3의 관점"
    confidence := (7 : ℚ) / 10
    reasoning := resp
    evidence := [] }

/-- `_inject_third_perspective`: append the third-perspective opinion and
reset the stagnation counter. -/
def injectThirdPerspective (resp : String) (st : SysState) : SysState :=
  { st with active_opinions := st.active_opinions ++ [thirdPerspectiveOpinion resp],
            stagnation_count := 0 }

/-- `_handle_stagnation`: with exactly 2 distinct labels force termination by
setting `current_round = max_rounds`; with 3 or more inject a third
perspective; otherwise do nothing. -/
def handleStagnation (resp : String) (st : SysState) : SysState :=
  if distinctLabelCount st.active_opinions = 2 then
    { st with current_round := st.max_rounds }
  else if 3 ≤ distinctLabelCount st.active_opinions then
    injectThirdPerspective resp st
  else st

/-- `_should_terminate`: `current_round >= max_rounds`. -/
def shouldTerminate (st : SysState) : Bool :=
  decide (st.max_rounds ≤ st.current_round)

/-- `self.current_round += 1` at the top of the loop body. -/
def incrementRound (st : SysState) : SysState :=
  { st with current_round := st.current_round + 1 }

/-- The tail of the loop body after stagnation handling: run one debate
cycle, then break on consensus or on reaching `max_rounds`.  The returned
`Bool` is whether the loop breaks. -/
def runCycleAndCheck (e : RoundEnv) (st : SysState) : Bool × SysState :=
  if (runDebateCycle e st).1 then (true, (runDebateCycle e st).2)
  else if (runDebateCycle e st).2.max_rounds ≤ (runDebateCycle e st).2.current_round then
    (true, (runDebateCycle e st).2)
  else (false, (runDebateCycle e st).2)

/-- One iteration of the `while` loop of `_conduct_debate` (entered when
`current_round < max_rounds`): increment the round counter, check
stagnation, on stagnation intervene and break if `_should_terminate`, then
run the debate cycle with its consensus / max-rounds breaks. -/
def loopBody (env : Nat → RoundEnv) (st : SysState) : Bool × SysState :=
  if (checkStagnation (incrementRound st)).1 then
    if shouldTerminate
        (handleStagnation (env (st.current_round + 1)).inject
          (checkStagnation (incrementRound st)).2) then
      (true,
       handleStagnation (env (st.current_round + 1)).inject
         (checkStagnation (incrementRound st)).2)
    else
      runCycleAndCheck (env (st.current_round + 1))
        (handleStagnation (env (st.current_round + 1)).inject
          (checkStagnation (incrementRound st)).2)
  else
    runCycleAndCheck (env (st.current_round + 1)) (checkStagnation (incrementRound st)).2

/-- The `while self.current_round < self.max_rounds` loop of
`_conduct_debate`, with explicit fuel and an iteration counter.
`conductDebate` below supplies fuel equal to the remaining round budget;
the fuel-indifference theorem for C4 shows any fuel at least that large
gives the same result, i.e. the loop terminates within the budget. -/
def conductDebateFuel (env : Nat → RoundEnv) : Nat → SysState → SysState × Nat
  | 0, st => (st, 0)
  | fuel + 1, st =>
    if st.current_round < st.max_rounds then
      if (loopBody env st).1 then ((loopBody env st).2, 1)
      else
        ((conductDebateFuel env fuel (loopBody env st).2).1,
         (conductDebateFuel env fuel (loopBody env st).2).2 + 1)
    else (st, 0)

/-- `_conduct_debate`: the loop, run with the full remaining round budget.
The second component counts executed loop iterations. -/
def conductDebate (env : Nat → RoundEnv) (st : SysState) : SysState × Nat :=
  conductDebateFuel env (st.max_rounds - st.current_round) st

/-! ## Helper lemmas -/

theorem runDebateCycle_snd (e : RoundEnv) (st : SysState) : (runDebateCycle e st).2 = st := rfl

theorem runCycleAndCheck_snd (e : RoundEnv) (st : SysState) :
    (runCycleAndCheck e st).2 = st := by
  unfold runCycleAndCheck
  split
  · exact runDebateCycle_snd e st
  · split
    · exact runDebateCycle_snd e st
    · exact runDebateCycle_snd e st

theorem checkStagnation_cur (st : SysState) :
    (checkStagnation st).2.current_round = st.current_round := by
  unfold checkStagnation
  split
  · rfl
  · split
    · rfl
    · split
      · rfl
      · rfl

theorem checkStagnation_max (st : SysState) :
    (checkStagnation st).2.max_rounds = st.max_rounds := by
  unfold checkStagnation
  split
  · rfl
  · split
    · rfl
    · split
      · rfl
      · rfl

theorem checkStagnation_hist (st : SysState) :
    (checkStagnation st).2.debate_history = st.debate_history := by
  unfold checkStagnation
  split
  · rfl
  · split
    · rfl
    · split
      · rfl
      · rfl

theorem handleStagnation_max (resp : String) (st : SysState) :
    (handleStagnation resp st).max_rounds = st.max_rounds := by
  unfold handleStagnation
  split
  · rfl
  · split
    · rfl
    · rfl

theorem handleStagnation_hist (resp : String) (st : SysState) :
    (handleStagnation resp st).debate_history = st.debate_history := by
  unfold handleStagnation
  split
  · rfl
  · split
    · rfl
    · rfl

theorem handleStagnation_cur (resp : String) (st : SysState) :
    (handleStagnation resp st).current_round = st.current_round ∨
    (handleStagnation resp st).current_round = st.max_rounds := by
  unfold handleStagnation
  split
  · right; rfl
  · split
    · left; rfl
    · left; rfl

theorem loopBody_state (env : Nat → RoundEnv) (st : SysState) :
    (loopBody env st).2.max_rounds = st.max_rounds ∧
    (loopBody env st).2.debate_history = st.debate_history ∧
    ((loopBody env st).2.current_round = st.current_round + 1 ∨
     (loopBody env st).2.current_round = st.max_rounds) := by
  have hc : (checkStagnation (incrementRound st)).2.current_round = st.current_round + 1 := by
    rw [checkStagnation_cur]; rfl
  have hm : (checkStagnation (incrementRound st)).2.max_rounds = st.max_rounds := by
    rw [checkStagnation_max]; rfl
  have hh : (checkStagnation (incrementRound st)).2.debate_history = st.debate_history := by
    rw [checkStagnation_hist]; rfl
  unfold loopBody
  split
  · split
    · refine ⟨?_, ?_, ?_⟩
      · rw [handleStagnation_max, hm]
      · rw [handleStagnation_hist, hh]
      · rcases handleStagnation_cur (env (st.current_round + 1)).inject
          (checkStagnation (incrementRound st)).2 with h | h
        · left; rw [h, hc]
        · right; rw [h, hm]
    · rw [runCycleAndCheck_snd]
      refine ⟨?_, ?_, ?_⟩
      · rw [handleStagnation_max, hm]
      · rw [handleStagnation_hist, hh]
      · rcases handleStagnation_cur (env (st.current_round + 1)).inject
          (checkStagnation (incrementRound st)).2 with h | h
        · left; rw [h, hc]
        · right; rw [h, hm]
  · rw [runCycleAndCheck_snd]
    exact ⟨hm, hh, Or.inl hc⟩

theorem gatherOpinions_length (rs : List String) (gs : List (String × String)) :
    (gatherOpinions rs gs).length = gs.length := by
  induction gs generalizing rs with
  | nil => rfl
  | cons g gs ih =>
    obtain ⟨a, b⟩ := g
    simp [gatherOpinions, ih]

/-! ## Claim C1 -/

/-- Round environment for the C1/C9 style evaluations. -/
def envC1 : RoundEnv where
  opinionTexts := ["진단명: 감기\n확신도: 0.8\n근거: 기침과 발열"]
  judgment := "합의 미도달: 남은 이견 2"
  inject := ""

/-- A fresh session state whose specialist groups hold one group. -/
def stC1 : SysState := { initState with specialist_groups := [("내과", "신경과")] }

/-- C1: the claim says `active_opinions` is non-empty after Stage 1 of every
round that completes, i.e. after every `_run_debate_cycle`.  In the code,
Stage 1 gathers one opinion per group into a local list, but
`_final_judgment` returns the pre-existing `self.active_opinions`, which is
what `_run_debate_cycle` stores back: on the initial state (empty
`active_opinions`, one specialist group) the cycle completes Stage 1 with
one gathered opinion yet leaves `active_opinions` empty. -/
theorem c1_active_opinions_stay_empty :
    stC1.specialist_groups.length = 1 ∧
    (gatherOpinions envC1.opinionTexts stC1.specialist_groups).length = 1 ∧
    stC1.active_opinions = [] ∧
    (runDebateCycle envC1 stC1).2.active_opinions = [] := by
  exact ⟨rfl, (gatherOpinions_length _ _).trans rfl, rfl, rfl⟩

/-! ## Claim C2 -/

/-- An oracle call whose underlying API request raises. -/
def failedCall : ApiBehavior where
  first := Except.error "Connection timeout"
  second := Except.error "Connection timeout"

/-- C2 counterexample: a failed oracle call is not recovered to any
default/neutral success value — `_call_claude` re-raises, so the result of
the concrete failing call is the propagated error, not a success. -/
theorem c2_counterexample :
    isOkB (callClaude failedCall) = false ∧
    callClaude failedCall = Except.error "Connection timeout" :=
  ⟨rfl, rfl⟩

/-- C2 amended: a failed or timed-out oracle call is logged and re-raised by
`_call_claude`; the failure propagates to the caller (whether the first or
the tool-use follow-up request failed) instead of degrading to a fallback,
so the session aborts rather than running to completion. -/
theorem c2_call_failure_propagates (e : String) (sec : Except String ApiMessage)
    (m : ApiMessage) :
    callClaude ⟨Except.error e, sec⟩ = Except.error e ∧
    (m.stopReason = "tool_use" →
      callClaude ⟨Except.ok m, Except.error e⟩ = Except.error e) := by
  refine ⟨rfl, fun h => ?_⟩
  simp [callClaude, h]

/-- Witness for C2: the amended theorem at a concrete failing behavior. -/
theorem c2_call_failure_propagates_witness :
    callClaude ⟨Except.error "x", Except.error "y"⟩ = Except.error "x" ∧
    callClaude ⟨Except.ok ⟨"tool_use", []⟩, Except.error "x"⟩ = Except.error "x" :=
  ⟨(c2_call_failure_propagates "x" (Except.error "y") ⟨"tool_use", []⟩).1,
   (c2_call_failure_propagates "x" (Except.error "y") ⟨"tool_use", []⟩).2 rfl⟩

/-! ## Claim C3 -/

/-- C3: on a response with no bracketed list, `re.search` returns `None`
without raising, so the `if list_match:` body and the `except` fallback are
both skipped: `selected_specialists` is left empty (not the documented
two-role default), and group formation then hits `selected_specialists[0]`
on an empty list — an `IndexError` (`none`), aborting the pipeline. -/
theorem c3_no_bracket_no_fallback :
    selectSpecialists "적절한 전문과를 선정할 수 없습니다" [] = [] ∧
    formCircularGroups (selectSpecialists "적절한 전문과를 선정할 수 없습니다" []) [] = none :=
  ⟨rfl, rfl⟩

/-! ## Claim C6 -/

/-- C6: given the stagnation signal, the intervention is a pure function of
the number of distinct diagnosis labels: exactly 2 forces
`current_round = max_rounds` and changes nothing else; 3 or more appends
exactly one new opinion and resets `stagnation_count`; exactly 1 changes no
state. -/
theorem c6_handleStagnation_cases (resp : String) (st : SysState) :
    (distinctLabelCount st.active_opinions = 2 →
      handleStagnation resp st = { st with current_round := st.max_rounds }) ∧
    (3 ≤ distinctLabelCount st.active_opinions →
      handleStagnation resp st =
        { st with active_opinions := st.active_opinions ++ [thirdPerspectiveOpinion resp],
                  stagnation_count := 0 }) ∧
    (distinctLabelCount st.active_opinions = 1 → handleStagnation resp st = st) := by
  refine ⟨fun h => ?_, fun h => ?_, fun h => ?_⟩
  · simp [handleStagnation, h]
  · have h2 : ¬ distinctLabelCount st.active_opinions = 2 := by omega
    simp [handleStagnation, h2, h, injectThirdPerspective]
  · have h2 : ¬ distinctLabelCount st.active_opinions = 2 := by omega
    have h3 : ¬ 3 ≤ distinctLabelCount st.active_opinions := by omega
    simp [handleStagnation, h2, h3]

/-- Opinion with label "감기". -/
def opGamgi : DiagnosisOpinion := ⟨"그룹1", "감기", (1 : ℚ) / 2, "근거1", []⟩

/-- Opinion with label "독감". -/
def opDokgam : DiagnosisOpinion := ⟨"그룹2", "독감", (1 : ℚ) / 2, "근거2", []⟩

/-- Opinion with label "폐렴". -/
def opPyeryeom : DiagnosisOpinion := ⟨"그룹3", "폐렴", (1 : ℚ) / 2, "근거3", []⟩

/-- State with two distinct active labels. -/
def stTwoLabels : SysState := { initState with active_opinions := [opGamgi, opDokgam] }

/-- State with three distinct active labels. -/
def stThreeLabels : SysState :=
  { initState with active_opinions := [opGamgi, opDokgam, opPyeryeom] }

/-- State with one distinct active label. -/
def stOneLabel : SysState := { initState with active_opinions := [opGamgi] }

/-- Witness for C6: all three branches of the intervention at concrete
states with 2, 3 and 1 distinct labels. -/
theorem c6_handleStagnation_cases_witness :
    handleStagnation "새 관점" stTwoLabels =
      { stTwoLabels with current_round := stTwoLabels.max_rounds } ∧
    handleStagnation "새 관점" stThreeLabels =
      { stThreeLabels with
          active_opinions := stThreeLabels.active_opinions ++ [thirdPerspectiveOpinion "새 관점"],
          stagnation_count := 0 } ∧
    handleStagnation "새 관점" stOneLabel = stOneLabel :=
  ⟨(c6_handleStagnation_cases "새 관점" stTwoLabels).1 (by decide),
   (c6_handleStagnation_cases "새 관점" stThreeLabels).2.1 (by decide),
   (c6_handleStagnation_cases "새 관점" stOneLabel).2.2 (by decide)⟩

/-! ## Claim C5 -/

/-- C5: on a call to `_check_stagnation` with non-empty `active_opinions`
and an existing previous signature, the computed signature is the
sorted-by-label concatenation (`opinionSignature`); equality with the
previous round's signature increments `stagnation_count` by 1 and changes
nothing else, inequality resets the count to 0 and appends the new
signature; the call returns `true` exactly when the updated
`stagnation_count` has reached `stagnation_threshold`. -/
theorem c5_checkStagnation_spec (st : SysState) (lastSig : String)
    (hne : st.active_opinions ≠ [])
    (hlast : st.last_opinions.getLast? = some lastSig) :
    (opinionSignature st.active_opinions = lastSig →
      (checkStagnation st).2 = { st with stagnation_count := st.stagnation_count + 1 } ∧
      ((checkStagnation st).1 = true ↔ st.stagnation_threshold ≤ st.stagnation_count + 1)) ∧
    (opinionSignature st.active_opinions ≠ lastSig →
      (checkStagnation st).2 =
        { st with stagnation_count := 0,
                  last_opinions := st.last_opinions ++ [opinionSignature st.active_opinions] } ∧
      ((checkStagnation st).1 = true ↔ st.stagnation_threshold ≤ 0)) := by
  have hlen : ¬ st.active_opinions.length = 0 := by
    simpa using hne
  constructor
  · intro heq
    have key : checkStagnation st =
        (decide (st.stagnation_threshold ≤ st.stagnation_count + 1),
         { st with stagnation_count := st.stagnation_count + 1 }) := by
      unfold checkStagnation
      rw [if_neg hlen, hlast]
      simp only [if_pos heq]
    rw [key]
    exact ⟨rfl, by simp⟩
  · intro hneq
    have key : checkStagnation st =
        (decide (st.stagnation_threshold ≤ 0),
         { st with stagnation_count := 0,
                   last_opinions := st.last_opinions ++ [opinionSignature st.active_opinions] }) := by
      unfold checkStagnation
      rw [if_neg hlen, hlast]
      simp only [if_neg hneq]
    rw [key]
    exact ⟨rfl, by simp⟩

/-- State that repeats the previous signature with count 9 of 10. -/
def stStagnant : SysState :=
  { initState with active_opinions := [opGamgi], last_opinions := ["감기"],
                   stagnation_count := 9 }

/-- State whose signature differs from the previous one. -/
def stChanged : SysState :=
  { initState with active_opinions := [opDokgam], last_opinions := ["감기"],
                   stagnation_count := 9 }

/-- Witness for C5: both branches at concrete states — the 10th repeat
reaches the threshold, a changed signature resets and appends. -/
theorem c5_checkStagnation_spec_witness :
    ((checkStagnation stStagnant).2 = { stStagnant with stagnation_count := 10 } ∧
     ((checkStagnation stStagnant).1 = true ↔ (10 : Nat) ≤ 10)) ∧
    ((checkStagnation stChanged).2 =
       { stChanged with stagnation_count := 0, last_opinions := ["감기", "독감"] } ∧
     ((checkStagnation stChanged).1 = true ↔ (10 : Nat) ≤ 0)) :=
  ⟨(c5_checkStagnation_spec stStagnant "감기" (by decide) (by decide)).1 (by decide),
   (c5_checkStagnation_spec stChanged "감기" (by decide) (by decide)).2 (by decide)⟩

/-! ## Claim C7 -/

/-- C7: for a selected-specialist sequence of length at least 2,
`_form_circular_groups` (from an empty group list) produces exactly `n`
groups, group `i` being `(S[i], S[(i+1) mod n])`; when the sequence has no
duplicate roles (as the selector specifies), every specialist occurs as the
first member of exactly one group and as the second member of exactly one
group.  A length-1 sequence yields exactly the one self-paired group. -/
theorem c7_formCircularGroups_spec (S : List String) (G : List (String × String)) :
    (2 ≤ S.length → formCircularGroups S [] = some G →
      G.length = S.length ∧
      (∀ i, i < S.length →
        G.getD i ("", "") = (S.getD i "", S.getD ((i + 1) % S.length) "")) ∧
      (S.Nodup → ∀ s ∈ S, List.count s (G.map Prod.fst) = 1 ∧
        List.count s (G.map Prod.snd) = 1)) ∧
    (∀ a, S = [a] → formCircularGroups S [] = some [(a, a)]) := by
  constructor
  · intro h2 hG
    have hlt : ¬ S.length < 2 := by omega
    unfold formCircularGroups at hG
    rw [if_neg hlt] at hG
    simp only [List.nil_append] at hG
    have hGeq : G = (List.range S.length).map
        (fun i => (S.getD i "", S.getD ((i + 1) % S.length) "")) :=
      (Option.some_inj.mp hG).symm
    subst hGeq
    have hfst : ((List.range S.length).map
        (fun i => (S.getD i "", S.getD ((i + 1) % S.length) ""))).map Prod.fst = S := by
      apply List.ext_getElem
      · simp
      · intro i h1 h2'
        simp only [List.getElem_map, List.getElem_range]
        exact List.getD_eq_getElem S "" h2'
    have hsnd : ((List.range S.length).map
        (fun i => (S.getD i "", S.getD ((i + 1) % S.length) ""))).map Prod.snd
          = S.rotate 1 := by
      apply List.ext_getElem
      · simp [List.length_rotate]
      · intro i h1 h2'
        simp only [List.getElem_map, List.getElem_range, List.getElem_rotate]
        exact List.getD_eq_getElem S "" (Nat.mod_lt _ (by omega))
    refine ⟨by simp, ?_, ?_⟩
    · intro i hi
      have hi' : i < ((List.range S.length).map
          (fun i => (S.getD i "", S.getD ((i + 1) % S.length) ""))).length := by simp [hi]
      rw [List.getD_eq_getElem _ _ hi']
      simp [List.getElem_map, List.getElem_range]
    · intro hnd s hs
      constructor
      · rw [hfst]
        exact List.count_eq_one_of_mem hnd hs
      · rw [hsnd, (S.rotate_perm 1).count_eq]
        exact List.count_eq_one_of_mem hnd hs
  · intro a ha
    subst ha
    rfl

/-- Witness for C7: the cyclic structure at a concrete 3-role selection,
and the self-pair at a concrete 1-role selection. -/
theorem c7_formCircularGroups_spec_witness :
    ([("내과", "신경과"), ("신경과", "피부과"), ("피부과", "내과")].length
       = (["내과", "신경과", "피부과"] : List String).length) ∧
    List.count "내과" ([("내과", "신경과"), ("신경과", "피부과"), ("피부과", "내과")].map Prod.fst) = 1 ∧
    List.count "내과" ([("내과", "신경과"), ("신경과", "피부과"), ("피부과", "내과")].map Prod.snd) = 1 ∧
    formCircularGroups ["영상의학과"] [] = some [("영상의학과", "영상의학과")] :=
  ⟨((c7_formCircularGroups_spec ["내과", "신경과", "피부과"]
      [("내과", "신경과"), ("신경과", "피부과"), ("피부과", "내과")]).1 (by decide) (by decide)).1,
   (((c7_formCircularGroups_spec ["내과", "신경과", "피부과"]
      [("내과", "신경과"), ("신경과", "피부과"), ("피부과", "내과")]).1 (by decide) (by decide)).2.2
        (by decide) "내과" (by decide)).1,
   (((c7_formCircularGroups_spec ["내과", "신경과", "피부과"]
      [("내과", "신경과"), ("신경과", "피부과"), ("피부과", "내과")]).1 (by decide) (by decide)).2.2
        (by decide) "내과" (by decide)).2,
   (c7_formCircularGroups_spec ["영상의학과"] []).2 "영상의학과" rfl⟩

/-! ## Claim C8 -/

theorem searchField_eq_none (lit : List Char) (tm : List Char → Option (List Char)) :
    ∀ cs : List Char, containsSeq lit cs = false → searchField lit tm cs = none := by
  intro cs
  induction cs with
  | nil =>
    intro h
    unfold containsSeq at h
    unfold searchField
    cases hs : startsWithLit [] lit with
    | none => rfl
    | some rest => rw [hs] at h; simp at h
  | cons c t ih =>
    intro h
    unfold containsSeq at h
    rw [Bool.or_eq_false_iff] at h
    obtain ⟨h1, h2⟩ := h
    unfold searchField
    cases hs : startsWithLit (c :: t) lit with
    | none => exact ih h2
    | some rest => rw [hs] at h1; simp at h1

theorem pyFloat_nonneg (cs : List Char) (v : ℚ) (h : pyFloat cs = some v) : 0 ≤ v := by
  unfold pyFloat at h
  split_ifs at h
  · rw [Option.some_inj] at h
    rw [← h]
    positivity

/-- C8 amended: `_parse_opinion_response` always returns a well-formed
opinion without raising, with the documented fallbacks — label `"진단 미상"`
when no `진단명:` field occurs, confidence `0.5` when no `확신도:` field
occurs (or its number fails `float()`), rationale the full response text
when no `근거:` field occurs — and the confidence is always non-negative;
but it is the unclamped parsed value, so it lies in `[0, 1]` only when the
matched number does. -/
theorem c8_parseOpinion_amended (sp r : String) :
    (parseOpinionResponse sp r).specialist = sp ∧
    0 ≤ (parseOpinionResponse sp r).confidence ∧
    (containsSeq diagLit r.toList = false →
      (parseOpinionResponse sp r).diagnosis = "진단 미상") ∧
    (containsSeq confLit r.toList = false →
      (parseOpinionResponse sp r).confidence = 1 / 2) ∧
    (containsSeq reasonLit r.toList = false →
      (parseOpinionResponse sp r).reasoning = r) := by
  refine ⟨rfl, ?_, fun h => ?_, fun h => ?_, fun h => ?_⟩
  · cases hs : searchField confLit matchTailConf r.toList with
    | none =>
      simp only [String.toList] at hs
      simp [parseOpinionResponse, hs]
    | some run =>
      cases hf : pyFloat run with
      | none =>
        simp only [String.toList] at hs
        simp [parseOpinionResponse, hs, hf]
      | some v =>
        simp only [String.toList] at hs
        have hv := pyFloat_nonneg run v hf
        simpa [parseOpinionResponse, hs, hf] using hv
  · have hn := searchField_eq_none diagLit matchTailLine r.toList h
    simp only [String.toList] at hn
    simp [parseOpinionResponse, hn]
  · have hn := searchField_eq_none confLit matchTailConf r.toList h
    simp only [String.toList] at hn
    simp [parseOpinionResponse, hn]
  · have hn := searchField_eq_none reasonLit matchTailDotall r.toList h
    simp only [String.toList] at hn
    simp [parseOpinionResponse, hn]

/-- C8 counterexample: the response `"확신도: 5"` parses without error, but
the returned confidence is 5, outside `[0, 1]` — the parser does not clamp
the value, refuting the claim's range guarantee. -/
theorem c8_counterexample :
    (parseOpinionResponse "내과+신경과" "확신도: 5").confidence = 5 ∧
    ¬ (parseOpinionResponse "내과+신경과" "확신도: 5").confidence ≤ 1 := by
  have hp : pyFloat ['5'] = some 5 := by
    unfold pyFloat
    rw [if_pos (by decide)]
    have h1 : List.takeWhile (fun c : Char => c != '.') ['5'] = ['5'] := by decide
    rw [h1]
    have h2 : digitsToNat ['5'] = 5 := by decide
    have h3 : List.drop 1 (List.drop (['5'] : List Char).length ['5']) = ([] : List Char) := by
      decide
    rw [h2, h3]
    norm_num [digitsToNat]
  have hs : searchField confLit matchTailConf ("확신도: 5").toList = some ['5'] := by decide
  have hc : (parseOpinionResponse "내과+신경과" "확신도: 5").confidence = 5 := by
    simp only [String.toList] at hs
    simp [parseOpinionResponse, hs, hp]
  refine ⟨hc, ?_⟩
  rw [hc]
  norm_num

/-- Witness for C8: the amended theorem at a response containing none of the
three labeled fields. -/
theorem c8_parseOpinion_amended_witness :
    (parseOpinionResponse "내과+신경과" "hello").specialist = "내과+신경과" ∧
    (0 : ℚ) ≤ (parseOpinionResponse "내과+신경과" "hello").confidence ∧
    (parseOpinionResponse "내과+신경과" "hello").diagnosis = "진단 미상" ∧
    (parseOpinionResponse "내과+신경과" "hello").confidence = 1 / 2 ∧
    (parseOpinionResponse "내과+신경과" "hello").reasoning = "hello" :=
  ⟨(c8_parseOpinion_amended "내과+신경과" "hello").1,
   (c8_parseOpinion_amended "내과+신경과" "hello").2.1,
   (c8_parseOpinion_amended "내과+신경과" "hello").2.2.1 (by decide),
   (c8_parseOpinion_amended "내과+신경과" "hello").2.2.2.1 (by decide),
   (c8_parseOpinion_amended "내과+신경과" "hello").2.2.2.2 (by decide)⟩

/-! ## Round-loop lemmas for C4, C9, C10 -/

theorem loopBody_bounds (env : Nat → RoundEnv) (st : SysState)
    (h : st.current_round < st.max_rounds) :
    st.current_round + 1 ≤ (loopBody env st).2.current_round ∧
    (loopBody env st).2.current_round ≤ st.max_rounds ∧
    (loopBody env st).2.max_rounds = st.max_rounds := by
  obtain ⟨hm, hh, hc⟩ := loopBody_state env st
  rcases hc with h1 | h1 <;> exact ⟨by omega, by omega, hm⟩

theorem conductDebateFuel_count (env : Nat → RoundEnv) :
    ∀ (fuel : Nat) (st : SysState),
      (conductDebateFuel env fuel st).2 ≤ st.max_rounds - st.current_round := by
  intro fuel
  induction fuel with
  | zero => intro st; simp [conductDebateFuel]
  | succ f ih =>
    intro st
    unfold conductDebateFuel
    split
    · next hg =>
      split
      · simp only []
        omega
      · have hb := loopBody_bounds env st hg
        have hr := ih (loopBody env st).2
        simp only []
        omega
    · simp

theorem conductDebateFuel_irrel (env : Nat → RoundEnv) :
    ∀ (f1 f2 : Nat) (st : SysState),
      st.max_rounds - st.current_round ≤ f1 →
      st.max_rounds - st.current_round ≤ f2 →
      conductDebateFuel env f1 st = conductDebateFuel env f2 st := by
  intro f1
  induction f1 with
  | zero =>
    intro f2 st h1 h2
    have hg : ¬ st.current_round < st.max_rounds := by omega
    cases f2 with
    | zero => rfl
    | succ f =>
      unfold conductDebateFuel
      rw [if_neg hg]
  | succ f ih =>
    intro f2 st h1 h2
    by_cases hg : st.current_round < st.max_rounds
    · cases f2 with
      | zero => omega
      | succ f2' =>
        unfold conductDebateFuel
        rw [if_pos hg, if_pos hg]
        have hb := loopBody_bounds env st hg
        by_cases hbr : (loopBody env st).1 = true
        · rw [if_pos hbr, if_pos hbr]
        · rw [if_neg hbr, if_neg hbr]
          have hrec := ih f2' (loopBody env st).2 (by omega) (by omega)
          rw [hrec]
    · cases f2 with
      | zero =>
        unfold conductDebateFuel
        rw [if_neg hg]
      | succ f2' =>
        unfold conductDebateFuel
        rw [if_neg hg, if_neg hg]

theorem conductDebateFuel_round_le (env : Nat → RoundEnv) :
    ∀ (fuel : Nat) (st : SysState), st.current_round ≤ st.max_rounds →
      (conductDebateFuel env fuel st).1.current_round ≤ st.max_rounds := by
  intro fuel
  induction fuel with
  | zero => intro st h; simpa [conductDebateFuel] using h
  | succ f ih =>
    intro st h
    unfold conductDebateFuel
    split
    · next hg =>
      split
      · have hb := loopBody_bounds env st hg
        simp only []
        omega
      · have hb := loopBody_bounds env st hg
        have h2 : (loopBody env st).2.current_round ≤ (loopBody env st).2.max_rounds := by
          omega
        have h3 := ih (loopBody env st).2 h2
        rw [hb.2.2] at h3
        simpa using h3
    · simpa using h

theorem conductDebateFuel_hist (env : Nat → RoundEnv) :
    ∀ (fuel : Nat) (st : SysState),
      (conductDebateFuel env fuel st).1.debate_history = st.debate_history := by
  intro fuel
  induction fuel with
  | zero => intro st; rfl
  | succ f ih =>
    intro st
    unfold conductDebateFuel
    split
    · split
      · simpa using (loopBody_state env st).2.1
      · have h1 := ih (loopBody env st).2
        rw [(loopBody_state env st).2.1] at h1
        simpa using h1
    · rfl

/-! ## Claim C9 -/

/-- A stagnated state: two distinct labels whose signature repeats the
previous round's, with the count one short of the threshold. -/
def stJump : SysState :=
  { initState with active_opinions := [opGamgi, opDokgam],
                   last_opinions := ["감기|독감"], stagnation_count := 9 }

/-- Environment whose judgment never contains the consensus marker. -/
def envJump : Nat → RoundEnv := fun _ => ⟨[], "합의 미도달", "제3의 관점 텍스트"⟩

/-- C9 counterexample: in the loop iteration starting from `stJump`
(round 0 of 100), stagnation is detected and the intervention with 2
distinct labels sets `current_round` to `max_rounds` — at the end of the
iteration `current_round` is 100, not the claimed start value plus 1. -/
theorem c9_counterexample :
    (loopBody envJump stJump).2.current_round = stJump.max_rounds ∧
    stJump.current_round + 1 = 1 ∧
    (loopBody envJump stJump).2.current_round ≠ stJump.current_round + 1 := by
  refine ⟨by decide, rfl, by decide⟩

/-- C9 amended: per loop iteration (entered when
`current_round < max_rounds`) the round counter either increases by exactly
1 or is set to `max_rounds` by the forced-termination intervention; in every
case it strictly increases (end value at least start value plus 1). -/
theorem c9_round_increment_amended (env : Nat → RoundEnv) (st : SysState)
    (h : st.current_round < st.max_rounds) :
    ((loopBody env st).2.current_round = st.current_round + 1 ∨
     (loopBody env st).2.current_round = st.max_rounds) ∧
    st.current_round + 1 ≤ (loopBody env st).2.current_round := by
  obtain ⟨hm, hh, hc⟩ := loopBody_state env st
  refine ⟨hc, ?_⟩
  rcases hc with h1 | h1 <;> omega

/-- Environment whose judgment carries the consensus marker. -/
def envConsensus : Nat → RoundEnv := fun _ => ⟨[], "합의 도달: 감기", ""⟩

/-- Witness for C9: the amended theorem at the initial state. -/
theorem c9_round_increment_amended_witness :
    ((loopBody envConsensus initState).2.current_round = initState.current_round + 1 ∨
     (loopBody envConsensus initState).2.current_round = initState.max_rounds) ∧
    initState.current_round + 1 ≤ (loopBody envConsensus initState).2.current_round :=
  c9_round_increment_amended envConsensus initState (by decide)

/-! ## Claim C4 -/

/-- A state already at the round ceiling. -/
def stDone : SysState := { initState with current_round := 100 }

/-- C4: the debate loop always terminates within the remaining round budget
— running it with any fuel at least `max_rounds - current_round` gives the
same result as the loop itself; it executes at most that many iterations
(at most `max_rounds` from a fresh session); `current_round` stays bounded
by `max_rounds`; once `current_round` has reached `max_rounds` no iteration
(hence no further debate cycle) runs; the default ceiling is 100. -/
theorem c4_conductDebate_spec (env : Nat → RoundEnv) (st : SysState) (fuel : Nat) :
    (st.max_rounds - st.current_round ≤ fuel →
      conductDebateFuel env fuel st = conductDebate env st) ∧
    (conductDebate env st).2 ≤ st.max_rounds - st.current_round ∧
    (st.current_round ≤ st.max_rounds →
      (conductDebate env st).1.current_round ≤ st.max_rounds) ∧
    (st.max_rounds ≤ st.current_round → conductDebate env st = (st, 0)) ∧
    initState.max_rounds = 100 := by
  refine ⟨fun h => ?_, ?_, fun h => ?_, fun h => ?_, rfl⟩
  · exact conductDebateFuel_irrel env fuel (st.max_rounds - st.current_round) st h le_rfl
  · exact conductDebateFuel_count env _ st
  · exact conductDebateFuel_round_le env _ st h
  · unfold conductDebate
    have h0 : st.max_rounds - st.current_round = 0 := by omega
    rw [h0]
    rfl

/-- Witness for C4: the bounds at the fresh session state, and the
no-iteration fact at a state already at the ceiling. -/
theorem c4_conductDebate_spec_witness :
    conductDebateFuel envConsensus 100 initState = conductDebate envConsensus initState ∧
    (conductDebate envConsensus initState).2 ≤ 100 ∧
    (conductDebate envConsensus initState).1.current_round ≤ 100 ∧
    conductDebate envConsensus stDone = (stDone, 0) :=
  ⟨(c4_conductDebate_spec envConsensus initState 100).1 (by decide),
   (c4_conductDebate_spec envConsensus initState 100).2.1,
   (c4_conductDebate_spec envConsensus initState 100).2.2.1 (by decide),
   (c4_conductDebate_spec envConsensus stDone 0).2.2.2.1 (by decide)⟩

/-! ## Claim C10 -/

/-- C10: `debate_history` is created empty and no operation of the debate
engine — the debate cycle, the stagnation detector, the intervention, the
injection, or any number of iterations of the round loop — ever appends to
or mutates it, so no `DebateRound` record is ever produced. -/
theorem c10_debate_history_frame (env : Nat → RoundEnv) (e : RoundEnv) (resp : String)
    (st : SysState) (fuel : Nat) :
    (runDebateCycle e st).2.debate_history = st.debate_history ∧
    (checkStagnation st).2.debate_history = st.debate_history ∧
    (handleStagnation resp st).debate_history = st.debate_history ∧
    (injectThirdPerspective resp st).debate_history = st.debate_history ∧
    (conductDebateFuel env fuel st).1.debate_history = st.debate_history ∧
    (conductDebate env st).1.debate_history = st.debate_history ∧
    initState.debate_history = [] :=
  ⟨rfl, checkStagnation_hist st, handleStagnation_hist resp st, rfl,
   conductDebateFuel_hist env fuel st, conductDebateFuel_hist env _ st, rfl⟩
